import Mathlib

/-!
Verification of the Fast_JSON_Serializer repository.

The source contains several parallel implementations of a JSON-RPC 2.0
serializer for trading-order requests:

* `src/v2.cpp` — growable `Buffer` plus the incremental `DeribitJsonRpc`
  writer with full string escaping, the `Schema` field lists and the
  `DeribitClient` facade.
* `src/unnamed/part_003` (the v3 benchmark file) — the same design, but its
  `append_escaped_string` copies the bytes verbatim without escaping.
* `src/v4.cpp`, first translation unit (namespace `v4a` below) — a
  `StaticBuffer`, `int_to_str` / `double_to_str` formatters, pre-rendered
  JSON templates with hand-written `FieldOffset` constants and the
  template-overwrite `Writer`.
* `src/v4.cpp`, second translation unit (namespace `v4b` below) — an
  incremental `Writer` driven by tag types, whose `write_field` helper
  receives the field name but never copies it into the buffer.
* `src/unnamed/part_004` (namespace `p4` below) — a bounds-checked
  fixed-capacity `Buffer` whose `append` silently drops writes that would
  overflow.

Bytes are modelled as `Nat` (the value of the `char`), byte strings as
`List Nat`.  `double` values that only flow through `std::to_chars` are
modelled as their pre-rendered output bytes; the arguments of the handwritten
`double_to_str` are modelled as exact rationals (`ℚ`), which is faithful for
all inputs whose source-level arithmetic is exact.
-/

set_option maxRecDepth 8000

/-- Byte values of the characters of a string literal. -/
def bytes (s : String) : List Nat := s.data.map Char.toNat

/-- Decimal digits of `value`, least significant first, as ASCII bytes.
Mirrors the `while (value > 0)` loop shared by the `int_to_str`
implementations; `fuel` only bounds the recursion and any `fuel ≥ value`
computes the same list. -/
def digits_loop (value fuel : Nat) : List Nat :=
  match fuel with
  | 0 => []
  | fuel' + 1 => if value = 0 then [] else (48 + value % 10) :: digits_loop (value / 10) fuel'

/-- Decimal ASCII rendering of an integer: minus sign for negative values,
then the digits.  This models the output of `std::to_chars` on an `int64_t`
(and coincides with the handwritten `int_to_str`). -/
def decimal_int (n : Int) : List Nat :=
  if n = 0 then [48]
  else (if n < 0 then [45] else []) ++ (digits_loop n.natAbs n.natAbs).reverse

namespace v2

/-- One step of the `switch` in `DeribitJsonRpc::append_escaped_string`
(src/v2.cpp lines 88–112): the bytes appended for one input byte. -/
def escByte (c : Nat) : List Nat :=
  if c = 34 then [92, 34]
  else if c = 92 then [92, 92]
  else if c = 10 then [92, 110]
  else if c = 13 then [92, 114]
  else if c = 9 then [92, 116]
  else [c]

/-- The `for (char c : value)` loop of `append_escaped_string`. -/
def escapeBytes : List Nat → List Nat
  | [] => []
  | c :: rest => escByte c ++ escapeBytes rest

/-- `DeribitJsonRpc::append_escaped_string` (src/v2.cpp): opening quote, the
escaped bytes, closing quote. -/
def append_escaped_string (value : List Nat) : List Nat :=
  34 :: escapeBytes value ++ [34]

/-- Escape handling of a standard JSON string decoder: the two-byte escapes
of RFC 8259 (`\" \\ \/ \b \f \n \r \t`). -/
def unesc (e : Nat) : Option Nat :=
  if e = 34 then some 34
  else if e = 92 then some 92
  else if e = 47 then some 47
  else if e = 98 then some 8
  else if e = 102 then some 12
  else if e = 110 then some 10
  else if e = 114 then some 13
  else if e = 116 then some 9
  else none

/-- Decodes the body of a JSON string literal after the opening quote:
stops at the unescaped closing quote (which must end the input), resolves
backslash escapes, passes every other byte through. -/
def decodeAux : List Nat → Option (List Nat)
  | [] => none
  | c :: rest =>
    if c = 34 then (if rest = [] then some [] else none)
    else if c = 92 then
      match rest with
      | [] => none
      | e :: rest' =>
        match unesc e with
        | some b => (decodeAux rest').map (b :: ·)
        | none => none
    else (decodeAux rest).map (c :: ·)

/-- Decodes a complete JSON string literal (opening quote, body, closing
quote) to the byte string it denotes. -/
def decodeStringLit (l : List Nat) : Option (List Nat) :=
  match l with
  | 34 :: rest => decodeAux rest
  | _ => none

end v2

namespace v3

/-- `DeribitJsonRpc::append_escaped_string` of the v3 benchmark file
(src/unnamed/part_003 lines 159–163): quote, the raw bytes with no
escaping, quote. -/
def append_escaped_string (value : List Nat) : List Nat :=
  34 :: value ++ [34]

end v3

namespace v2

/-- Decoding after the opening quote inverts the escape loop. -/
theorem decodeAux_escape (s : List Nat) :
    decodeAux (escapeBytes s ++ [34]) = some s := by
  induction s with
  | nil => simp [escapeBytes, decodeAux]
  | cons c tail ih =>
    by_cases h1 : c = 34
    · simp [escapeBytes, escByte, h1, decodeAux, unesc, ih]
    · by_cases h2 : c = 92
      · simp [escapeBytes, escByte, h1, h2, decodeAux, unesc, ih]
      · by_cases h3 : c = 10
        · simp [escapeBytes, escByte, h1, h2, h3, decodeAux, unesc, ih]
        · by_cases h4 : c = 13
          · simp [escapeBytes, escByte, h1, h2, h3, h4, decodeAux, unesc, ih]
          · by_cases h5 : c = 9
            · simp [escapeBytes, escByte, h1, h2, h3, h4, h5, decodeAux, unesc, ih]
            · rw [escapeBytes, escByte]
              simp only [h1, h2, h3, h4, h5, if_false]
              rw [List.cons_append, decodeAux.eq_def]
              simp [h1, h2, ih]

end v2

/-- C1 (amended): the v2 incremental writer's `append_escaped_string` emits a
quoted literal in which `"` and `\` are preceded by a backslash, newline,
carriage return and tab become the two-byte escapes `\n`, `\r`, `\t`, every
other byte passes through unchanged, and a standard JSON string decoder
recovers exactly the original bytes.  (The v3 variant of the same function
does not escape; see the counterexample.) -/
theorem c1_escape_roundtrip :
    (∀ s : List Nat, v2.decodeStringLit (v2.append_escaped_string s) = some s) ∧
    v2.escByte 34 = [92, 34] ∧ v2.escByte 92 = [92, 92] ∧
    v2.escByte 10 = [92, 110] ∧ v2.escByte 13 = [92, 114] ∧ v2.escByte 9 = [92, 116] ∧
    (∀ c : Nat, c ≠ 34 → c ≠ 92 → c ≠ 10 → c ≠ 13 → c ≠ 9 → v2.escByte c = [c]) := by
  refine ⟨fun s => ?_, by decide, by decide, by decide, by decide, by decide,
    fun c h1 h2 h3 h4 h5 => by simp [v2.escByte, h1, h2, h3, h4, h5]⟩
  simpa [v2.decodeStringLit, v2.append_escaped_string] using v2.decodeAux_escape s

/-- Closed instance of `c1_escape_roundtrip` at a concrete input containing a
quote and a newline (and at the pass-through byte 104, the letter h). -/
theorem c1_escape_roundtrip_witness :
    v2.decodeStringLit (v2.append_escaped_string (bytes ("he said \"hi\"\n")))
      = some (bytes ("he said \"hi\"\n")) ∧ v2.escByte 104 = [104] :=
  ⟨c1_escape_roundtrip.1 _,
   c1_escape_roundtrip.2.2.2.2.2.2 104 (by decide) (by decide) (by decide)
     (by decide) (by decide)⟩

/-- C1 counterexample: the v3 benchmark file's `append_escaped_string`
(src/unnamed/part_003 lines 159–163) leaves an input double-quote byte
unescaped, so the emitted literal does not decode back to the input. -/
theorem c1_counterexample :
    v3.append_escaped_string (bytes ("\"")) = [34, 34, 34] ∧
    v2.decodeStringLit (v3.append_escaped_string (bytes ("\"")))
      ≠ some (bytes ("\"")) := by
  decide

namespace v2

/-- Writer state of `DeribitJsonRpc`: the bytes appended to the backing
`Buffer` so far, and the `first_field_` flag.  `Buffer::append` is modelled
as list concatenation (the buffer development below proves that the growable
buffer realises exactly this concatenation semantics). -/
structure JState where
  buf : List Nat
  first_field : Bool
deriving DecidableEq

/-- The state a fresh `DeribitJsonRpc` sees after `Buffer::reset`. -/
def initState : JState := ⟨[], true⟩

/-- `begin_object`: append `{`, reset the first-field flag. -/
def begin_object (st : JState) : JState := ⟨st.buf ++ [123], true⟩

/-- `end_object`: append `}`. -/
def end_object (st : JState) : JState := ⟨st.buf ++ [125], st.first_field⟩

/-- `write_key`: comma unless this is the first field at this level, then
the quoted key and a colon. -/
def write_key (st : JState) (key : List Nat) : JState :=
  ⟨(if st.first_field then st.buf else st.buf ++ [44]) ++ 34 :: key ++ [34, 58], false⟩

/-- `serialize(key, string_view)`: key, then the escaped string literal. -/
def serialize_str (st : JState) (key value : List Nat) : JState :=
  let st1 := write_key st key
  ⟨st1.buf ++ append_escaped_string value, st1.first_field⟩

/-- `serialize(key, int64_t)`: key, then the `std::to_chars` decimal bytes
(the 32-byte scratch buffer never overflows for `int64_t`, so the error
branch is dead). -/
def serialize_int (st : JState) (key : List Nat) (value : Int) : JState :=
  let st1 := write_key st key
  ⟨st1.buf ++ decimal_int value, st1.first_field⟩

/-- `serialize(key, bool)`: key, then `true` or `false`. -/
def serialize_bool (st : JState) (key : List Nat) (value : Bool) : JState :=
  let st1 := write_key st key
  ⟨st1.buf ++ (if value then bytes ("true") else bytes ("false")), st1.first_field⟩

/-- `serialize(key, double)`: key, then the `std::to_chars` output appended
verbatim.  The IEEE-754 shortest-round-trip formatter is not modelled; the
double enters the model as its pre-rendered byte string `value`. -/
def serialize_raw (st : JState) (key value : List Nat) : JState :=
  let st1 := write_key st key
  ⟨st1.buf ++ value, st1.first_field⟩

/-- `begin_json_rpc(method, id)` (src/v2.cpp lines 164–171). -/
def begin_json_rpc (st : JState) (method : List Nat) (id : Int) : JState :=
  let st1 := begin_object st
  let st2 := serialize_str st1 (bytes ("jsonrpc")) (bytes ("2.0"))
  let st3 := serialize_str st2 (bytes ("method")) method
  let st4 := serialize_int st3 (bytes ("id")) id
  let st5 := write_key st4 (bytes ("params"))
  begin_object st5

/-- `end_json_rpc()`: close `params`, close the envelope. -/
def end_json_rpc (st : JState) : JState := end_object (end_object st)

/-- A schema field value, tagged with which `serialize` overload receives
it. `raw` stands for a double rendered by `std::to_chars`. -/
inductive JVal where
  | str : List Nat → JVal
  | int : Int → JVal
  | bool : Bool → JVal
  | raw : List Nat → JVal
deriving DecidableEq

/-- Dispatch of `serializer.serialize(field.name, field.get(obj))` on the
field's type. -/
def serialize_val (st : JState) (key : List Nat) : JVal → JState
  | .str s => serialize_str st key s
  | .int n => serialize_int st key n
  | .bool b => serialize_bool st key b
  | .raw r => serialize_raw st key r

/-- `Schema::serialize`: the fields in declaration order. -/
def serialize_fields (st : JState) : List (List Nat × JVal) → JState
  | [] => st
  | (k, v) :: rest => serialize_fields (serialize_val st k v) rest

/-- Specification-side rendering of one value. -/
def renderVal : JVal → List Nat
  | .str s => append_escaped_string s
  | .int n => decimal_int n
  | .bool b => if b then bytes ("true") else bytes ("false")
  | .raw r => r

/-- Specification-side rendering of one `"key":value` pair. -/
def renderField (f : List Nat × JVal) : List Nat :=
  34 :: f.1 ++ [34, 58] ++ renderVal f.2

/-- Comma-separated join: commas between consecutive pieces only, never
before the first or after the last. -/
def commaJoin : List (List Nat) → List Nat
  | [] => []
  | [x] => x
  | x :: y :: rest => x ++ 44 :: commaJoin (y :: rest)

/-- Specification-side rendering of the whole JSON-RPC envelope:
`{"jsonrpc":"2.0","method":<m>,"id":<n>,"params":{<fields>}}` with the
fields comma-joined in declaration order. -/
def renderRpc (method : List Nat) (id : Int) (fields : List (List Nat × JVal)) : List Nat :=
  123 :: (renderField (bytes ("jsonrpc"), .str (bytes ("2.0"))) ++ [44]
    ++ renderField (bytes ("method"), .str method) ++ [44]
    ++ renderField (bytes ("id"), .int id) ++ [44]
    ++ 34 :: bytes ("params") ++ [34, 58])
    ++ 123 :: commaJoin (fields.map renderField) ++ [125, 125]

/-- Bytes appended by every field after the first: a comma then the pair. -/
def tailJoin : List (List Nat × JVal) → List Nat
  | [] => []
  | f :: rest => 44 :: renderField f ++ tailJoin rest

theorem serialize_val_false (b : List Nat) (k : List Nat) (v : JVal) :
    serialize_val ⟨b, false⟩ k v = ⟨b ++ 44 :: renderField (k, v), false⟩ := by
  cases v <;>
    simp [serialize_val, serialize_str, serialize_int, serialize_bool, serialize_raw,
      write_key, renderField, renderVal]

theorem serialize_val_true (b : List Nat) (k : List Nat) (v : JVal) :
    serialize_val ⟨b, true⟩ k v = ⟨b ++ renderField (k, v), false⟩ := by
  cases v <;>
    simp [serialize_val, serialize_str, serialize_int, serialize_bool, serialize_raw,
      write_key, renderField, renderVal]

theorem serialize_fields_false (fields : List (List Nat × JVal)) (b : List Nat) :
    serialize_fields ⟨b, false⟩ fields = ⟨b ++ tailJoin fields, false⟩ := by
  induction fields generalizing b with
  | nil => simp [serialize_fields, tailJoin]
  | cons f rest ih =>
    obtain ⟨k, v⟩ := f
    rw [serialize_fields, serialize_val_false, ih]
    simp [tailJoin]

theorem commaJoin_map_cons (f : List Nat × JVal) (fs : List (List Nat × JVal)) :
    commaJoin ((f :: fs).map renderField) = renderField f ++ tailJoin fs := by
  induction fs generalizing f with
  | nil => simp [commaJoin, tailJoin]
  | cons g gs ih =>
    rw [List.map_cons, List.map_cons, commaJoin]
    have h := ih g
    rw [List.map_cons] at h
    rw [h]
    simp [tailJoin]

end v2

/-- C2: a complete incremental-writer serialization (`begin_json_rpc`, the
schema's field writes, `end_json_rpc`) produces exactly one top-level object
`{"jsonrpc":"2.0","method":<m>,"id":<n>,"params":{...}}`; `params` is always
a nested object, even with no fields; commas separate consecutive fields
only; the `params` fields appear in write (schema declaration) order with the
given values.  The second conjunct evaluates the rendered shape at the
get-positions request, whose `params` object is empty. -/
theorem c2_rpc_envelope :
    (∀ (method : List Nat) (id : Int) (fields : List (List Nat × v2.JVal)),
      (v2.end_json_rpc (v2.serialize_fields (v2.begin_json_rpc v2.initState method id)
        fields)).buf = v2.renderRpc method id fields) ∧
    v2.renderRpc (bytes ("private/get_positions")) 1 []
      = bytes ("\x7b\"jsonrpc\":\"2.0\",\"method\":\"private/get_positions\",\"id\":1,\"params\":\x7b\x7d\x7d") := by
  constructor
  · intro method id fields
    have hb : v2.begin_json_rpc v2.initState method id =
        ⟨123 :: (v2.renderField (bytes ("jsonrpc"), .str (bytes ("2.0"))) ++ [44]
          ++ v2.renderField (bytes ("method"), .str method) ++ [44]
          ++ v2.renderField (bytes ("id"), .int id) ++ [44]
          ++ 34 :: bytes ("params") ++ [34, 58]) ++ [123], true⟩ := by
      simp [v2.begin_json_rpc, v2.initState, v2.begin_object, v2.serialize_str,
        v2.serialize_int, v2.write_key, v2.renderField, v2.renderVal]
    rw [hb]
    cases fields with
    | nil =>
      simp [v2.serialize_fields, v2.end_json_rpc, v2.end_object, v2.renderRpc,
        v2.commaJoin]
    | cons f fs =>
      rw [v2.serialize_fields, v2.serialize_val_true, v2.serialize_fields_false]
      have h := v2.commaJoin_map_cons f fs
      rw [List.map_cons] at h
      simp [v2.end_json_rpc, v2.end_object, v2.renderRpc, h]
  · decide

namespace v2

/-- The growable `Buffer` of src/v2.cpp: heap capacity and the bytes written
so far (`size_` is `data.length`; storage past `size_` is never read). -/
structure Buffer where
  cap : Nat
  data : List Nat
deriving DecidableEq

/-- `Buffer(capacity)`. -/
def mkBuffer (capacity : Nat) : Buffer := ⟨capacity, []⟩

/-- `Buffer::reserve`: grows to `new_capacity` (preserving the written
bytes), no-op when the buffer is already at least that large. -/
def reserve (b : Buffer) (new_capacity : Nat) : Buffer :=
  if new_capacity ≤ b.cap then b else ⟨new_capacity, b.data⟩

/-- `Buffer::append(const char*, size_t)` (src/v2.cpp lines 36–42): on
overflow reserve `(size_ + len) * 2`, then copy.  The unchecked `memcpy` is
modelled as a guarded write: `none` is the out-of-bounds write the C++ would
perform if the bytes still did not fit. -/
def append_str (b : Buffer) (s : List Nat) : Option Buffer :=
  let b1 := if b.cap < b.data.length + s.length
    then reserve b ((b.data.length + s.length) * 2) else b
  if b1.data.length + s.length ≤ b1.cap then some ⟨b1.cap, b1.data ++ s⟩ else none

/-- `Buffer::append(char)` (src/v2.cpp lines 44–49): on overflow reserve
`capacity_ * 2`, then write one byte. -/
def append_chr (b : Buffer) (c : Nat) : Option Buffer :=
  let b1 := if b.cap < b.data.length + 1 then reserve b (b.cap * 2) else b
  if b1.data.length < b1.cap then some ⟨b1.cap, b1.data ++ [c]⟩ else none

/-- One append call: a byte-string append or a single-character append. -/
inductive BufOp where
  | str : List Nat → BufOp
  | chr : Nat → BufOp
deriving DecidableEq

/-- A sequence of append calls, stopping at the first out-of-bounds write. -/
def run_ops (b : Buffer) : List BufOp → Option Buffer
  | [] => some b
  | op :: rest =>
    match (match op with | .str s => append_str b s | .chr c => append_chr b c) with
    | some b' => run_ops b' rest
    | none => none

/-- The bytes an append-call sequence requests. -/
def opsBytes : List BufOp → List Nat
  | [] => []
  | .str s :: rest => s ++ opsBytes rest
  | .chr c :: rest => c :: opsBytes rest

/-- `Buffer::view()` is `(data_, size_)`, i.e. exactly the written bytes. -/
def view (b : Buffer) : List Nat := b.data

theorem append_str_some (b : Buffer) (s : List Nat) (hinv : b.data.length ≤ b.cap) :
    append_str b s = some ⟨if b.cap < b.data.length + s.length
      then (b.data.length + s.length) * 2 else b.cap, b.data ++ s⟩ := by
  by_cases h : b.cap < b.data.length + s.length
  · have hr : ¬ (b.data.length + s.length) * 2 ≤ b.cap := by omega
    have hfit : (b.data.length + s.length) ≤ (b.data.length + s.length) * 2 := by omega
    simp only [append_str, reserve, if_pos h, if_neg hr]
    simp [hfit, h]
  · simp only [append_str, if_neg h]
    have hfit : b.data.length + s.length ≤ b.cap := by omega
    simp [hfit, h]

theorem append_chr_some (b : Buffer) (c : Nat) (hinv : b.data.length ≤ b.cap)
    (hcap : 1 ≤ b.cap) :
    append_chr b c = some ⟨if b.cap < b.data.length + 1 then b.cap * 2 else b.cap,
      b.data ++ [c]⟩ := by
  by_cases h : b.cap < b.data.length + 1
  · have hr : ¬ b.cap * 2 ≤ b.cap := by omega
    have hfit : b.data.length < b.cap * 2 := by omega
    simp only [append_chr, reserve, if_pos h, if_neg hr]
    simp [hfit, h]
  · simp only [append_chr, if_neg h]
    have hfit : b.data.length < b.cap := by omega
    simp [hfit, h]

theorem run_ops_some (ops : List BufOp) (b : Buffer)
    (hinv : b.data.length ≤ b.cap) (hcap : 1 ≤ b.cap) :
    ∃ b' : Buffer, run_ops b ops = some b' ∧ b'.data = b.data ++ opsBytes ops := by
  induction ops generalizing b with
  | nil => exact ⟨b, rfl, by simp [run_ops, opsBytes]⟩
  | cons op rest ih =>
    cases op with
    | str s =>
      rw [run_ops, append_str_some b s hinv]
      by_cases h : b.cap < b.data.length + s.length
      · obtain ⟨b', hrun, hdata⟩ := ih ⟨(b.data.length + s.length) * 2, b.data ++ s⟩
          (show (b.data ++ s).length ≤ (b.data.length + s.length) * 2 by
            simp only [List.length_append]; omega)
          (show 1 ≤ (b.data.length + s.length) * 2 by omega)
        exact ⟨b', by simp only [if_pos h]; exact hrun, by simp [hdata, opsBytes]⟩
      · obtain ⟨b', hrun, hdata⟩ := ih ⟨b.cap, b.data ++ s⟩
          (show (b.data ++ s).length ≤ b.cap by
            simp only [List.length_append]; omega) hcap
        exact ⟨b', by simp only [if_neg h]; exact hrun, by simp [hdata, opsBytes]⟩
    | chr c =>
      rw [run_ops, append_chr_some b c hinv hcap]
      by_cases h : b.cap < b.data.length + 1
      · obtain ⟨b', hrun, hdata⟩ := ih ⟨b.cap * 2, b.data ++ [c]⟩
          (show (b.data ++ [c]).length ≤ b.cap * 2 by
            simp only [List.length_append, List.length_cons, List.length_nil]; omega)
          (show 1 ≤ b.cap * 2 by omega)
        exact ⟨b', by simp only [if_pos h]; exact hrun, by simp [hdata, opsBytes]⟩
      · obtain ⟨b', hrun, hdata⟩ := ih ⟨b.cap, b.data ++ [c]⟩
          (show (b.data ++ [c]).length ≤ b.cap by
            simp only [List.length_append, List.length_cons, List.length_nil]; omega) hcap
        exact ⟨b', by simp only [if_neg h]; exact hrun, by simp [hdata, opsBytes]⟩

end v2

/-- C5 (amended): starting from any positive initial capacity, every
sequence of appends stays in bounds, preserves all previously written bytes,
and leaves `view()` equal to the concatenation of all appended bytes with
length the total appended length.  When a byte-string append overflows, the
new capacity is `(size + len) * 2` — twice the needed size — not
`max(needed, 2 * current)` as the claim states (see the counterexample); a
single-character append doubles the current capacity instead. -/
theorem c5_buffer_growth (capacity : Nat) (ops : List v2.BufOp) (hcap : 1 ≤ capacity) :
    (∃ b : v2.Buffer, v2.run_ops (v2.mkBuffer capacity) ops = some b ∧
      v2.view b = v2.opsBytes ops ∧ (v2.view b).length = (v2.opsBytes ops).length) ∧
    (∀ (b : v2.Buffer) (s : List Nat), b.data.length ≤ b.cap →
      b.cap < b.data.length + s.length →
      v2.append_str b s = some ⟨(b.data.length + s.length) * 2, b.data ++ s⟩) := by
  constructor
  · obtain ⟨b, hrun, hdata⟩ := v2.run_ops_some ops (v2.mkBuffer capacity)
      (by simp [v2.mkBuffer]) hcap
    exact ⟨b, hrun, by simpa [v2.view, v2.mkBuffer] using hdata,
      by simp [v2.view, v2.mkBuffer, hdata]⟩
  · intro b s hinv hover
    rw [v2.append_str_some b s hinv]
    simp [hover]

/-- Closed instance of `c5_buffer_growth`: the spec's own example (initial
capacity 64, a 10000-byte total append), and a concrete overflowing append
(size 8, capacity 10, appending 6 bytes). -/
theorem c5_buffer_growth_witness :
    (∃ b : v2.Buffer,
      v2.run_ops (v2.mkBuffer 64) [.str (List.replicate 10000 120)] = some b ∧
      v2.view b = v2.opsBytes [.str (List.replicate 10000 120)] ∧
      (v2.view b).length = (v2.opsBytes [.str (List.replicate 10000 120)]).length) ∧
    v2.append_str ⟨10, List.replicate 8 120⟩ (List.replicate 6 121)
      = some ⟨28, List.replicate 8 120 ++ List.replicate 6 121⟩ :=
  ⟨(c5_buffer_growth 64 [.str (List.replicate 10000 120)] (by decide)).1,
   (c5_buffer_growth 64 [.str (List.replicate 10000 120)] (by decide)).2
     ⟨10, List.replicate 8 120⟩ (List.replicate 6 121) (by decide) (by decide)⟩

/-- C5 counterexample: after writing 8 bytes into a capacity-10 buffer, an
overflowing 6-byte append grows the capacity to `(8 + 6) * 2 = 28`, not to
`max(needed, 2 * current) = max(14, 20) = 20` as claimed; and with initial
capacity 0 a single-character append never grows (`reserve(0 * 2)` is a
no-op) and writes out of bounds (`none`), so the claim's "any initial
capacity" also fails. -/
theorem c5_counterexample :
    v2.run_ops (v2.mkBuffer 10)
        [.str (List.replicate 8 120), .str (List.replicate 6 121)]
      = some ⟨28, List.replicate 8 120 ++ List.replicate 6 121⟩ ∧
    (28 : Nat) ≠ max (8 + 6) (2 * 10) ∧
    v2.append_chr (v2.mkBuffer 0) 120 = none := by
  decide

namespace v2

/-- `DeribitOrderRequest` (src/v2.cpp lines 229–239).  The three `double`
members are modelled as the byte strings `std::to_chars` renders them to,
since the serializer appends that output verbatim. -/
structure DeribitOrderRequest where
  instrument_name : List Nat
  amount : List Nat
  price : List Nat
  type : List Nat
  label : List Nat
  reduce_only : Bool
  post_only : Bool
  time_in_force : List Nat
  max_show : List Nat
deriving DecidableEq

/-- `BuySellSchema` (src/v2.cpp lines 286–304): the declared field order and
the value each accessor reads. -/
def buySellFields (req : DeribitOrderRequest) : List (List Nat × JVal) :=
  [(bytes ("instrument_name"), .str req.instrument_name),
   (bytes ("amount"), .raw req.amount),
   (bytes ("price"), .raw req.price),
   (bytes ("type"), .str req.type),
   (bytes ("label"), .str req.label),
   (bytes ("reduce_only"), .bool req.reduce_only),
   (bytes ("post_only"), .bool req.post_only),
   (bytes ("time_in_force"), .str req.time_in_force),
   (bytes ("max_show"), .raw req.max_show)]

/-- `DeribitClient` state: the reusable buffer's bytes and `request_id_`. -/
structure Client where
  buffer : List Nat
  request_id : Int
deriving DecidableEq

/-- `DeribitClient()` : buffer of 8192 (capacity is immaterial to the bytes
produced, by `run_ops_some`), `request_id_ = 1`. -/
def mkClient : Client := ⟨[], 1⟩

/-- `DeribitClient::create_buy_request` (src/v2.cpp lines 327–336):
`buffer_.reset()`, a fresh writer, `begin_json_rpc("private/buy",
request_id_++)`, the schema fields, `end_json_rpc()`; returns the view and
the post-incremented client. -/
def create_buy_request (st : Client) (req : DeribitOrderRequest) :
    List Nat × Client :=
  let out := (end_json_rpc (serialize_fields
    (begin_json_rpc initState (bytes ("private/buy")) st.request_id)
    (buySellFields req))).buf
  (out, ⟨out, st.request_id + 1⟩)

end v2

/-- C8 (amended): after `reset()` the facade's output is a pure function of
the request id and the request — serializing the same request from any two
client states with equal `request_id_` yields byte-identical output,
regardless of what the reused buffer held before.  (As stated the claim
fails, because the facade post-increments `request_id_`, so two successive
calls differ in the `id` field; see the counterexample.) -/
theorem c8_reset_reserialize (a b : v2.Client) (req : v2.DeribitOrderRequest)
    (h : a.request_id = b.request_id) :
    (v2.create_buy_request a req).1 = (v2.create_buy_request b req).1 := by
  simp [v2.create_buy_request, h]

/-- Closed instance of `c8_reset_reserialize`: two clients with the same id
but different leftover buffer contents produce identical bytes. -/
theorem c8_reset_reserialize_witness :
    (v2.create_buy_request ⟨bytes ("leftover"), 7⟩
      ⟨bytes ("BTC-PERPETUAL"), bytes ("100"), bytes ("40000"), bytes ("limit"),
       bytes ("test_order"), false, true, bytes ("good_til_cancelled"),
       bytes ("100")⟩).1 =
    (v2.create_buy_request ⟨[], 7⟩
      ⟨bytes ("BTC-PERPETUAL"), bytes ("100"), bytes ("40000"), bytes ("limit"),
       bytes ("test_order"), false, true, bytes ("good_til_cancelled"),
       bytes ("100")⟩).1 :=
  c8_reset_reserialize _ _ _ (by decide)

/-- C8 counterexample: a fresh client serializes the same logical request
twice; the first output contains `"id":1`, the second `"id":2`, so the two
views are not byte-identical. -/
theorem c8_counterexample :
    ((v2.create_buy_request
        ((v2.create_buy_request v2.mkClient
          ⟨bytes ("BTC-PERPETUAL"), bytes ("100"), bytes ("40000"), bytes ("limit"),
           bytes ("test_order"), false, true, bytes ("good_til_cancelled"),
           bytes ("100")⟩).2)
        ⟨bytes ("BTC-PERPETUAL"), bytes ("100"), bytes ("40000"), bytes ("limit"),
         bytes ("test_order"), false, true, bytes ("good_til_cancelled"),
         bytes ("100")⟩).1) ≠
    ((v2.create_buy_request v2.mkClient
        ⟨bytes ("BTC-PERPETUAL"), bytes ("100"), bytes ("40000"), bytes ("limit"),
         bytes ("test_order"), false, true, bytes ("good_til_cancelled"),
         bytes ("100")⟩).1) := by
  decide

attribute [local semireducible] Rat.sub Rat.mul

namespace v4a

/-- `int_to_str` (src/v4.cpp lines 158–193): `0` formats as `"0"`; otherwise
a minus sign for negative values, then the digits, produced least
significant first and reversed. -/
def int_to_str (value : Int) : List Nat :=
  if value = 0 then [48]
  else (if value < 0 then [45] else []) ++ (digits_loop value.natAbs value.natAbs).reverse

/-- `static_cast<int64_t>` applied to a floating-point value: truncation
toward zero.  On the reduced fraction this is the truncating integer
division of numerator by denominator. -/
def cppTrunc (v : ℚ) : Int := Int.tdiv v.num (v.den : Int)

/-- The `0.0001` threshold of `double_to_str`; in the exact-rational model
it is `1/10000`. -/
def eps : ℚ := mkRat 1 10000

/-- `double_to_str` (src/v4.cpp lines 196–213): format the truncated integer
part; if the fractional remainder exceeds the epsilon in absolute value,
append `.` and the single byte `'0' + (int64_t)(frac_part * 10) % 10`
(`%` is the C++ truncated remainder, `Int.tmod`). -/
def double_to_str (value : ℚ) : List Nat :=
  let int_part : Int := cppTrunc value
  let frac_part : ℚ := value - (int_part : ℚ)
  if eps < frac_part ∨ frac_part < -eps then
    int_to_str int_part ++
      [46, (48 + Int.tmod (cppTrunc (frac_part * 10)) 10).toNat]
  else int_to_str int_part

/-- The fractional remainder `value - (int64_t)value`. -/
def fracPart (v : ℚ) : ℚ := v - (cppTrunc v : ℚ)

/-- The first decimal digit of the fractional part, truncated (specification
side of the claim). -/
def firstFracDigit (v : ℚ) : Nat := (cppTrunc (fracPart v * 10)).toNat

theorem eps_pos : 0 < eps := by decide

theorem cppTrunc_eq_floor (q : ℚ) (h : 0 ≤ q) : cppTrunc q = ⌊q⌋ := by
  rw [Rat.floor_def, cppTrunc, Int.tdiv_eq_ediv (Rat.num_nonneg.2 h) (by positivity)]

theorem fracPart_nonneg (v : ℚ) (h : 0 ≤ v) : 0 ≤ fracPart v := by
  have h1 := Int.floor_le v
  rw [fracPart, cppTrunc_eq_floor v h]
  linarith

theorem fracPart_lt_one (v : ℚ) (h : 0 ≤ v) : fracPart v < 1 := by
  have h1 := Int.lt_floor_add_one v
  rw [fracPart, cppTrunc_eq_floor v h]
  linarith

end v4a

/-- C6 (amended, over the exact-rational model): for every nonnegative `v`,
`double_to_str` writes the decimal form of the integer part truncated toward
zero and, exactly when the fractional remainder exceeds the epsilon, a
decimal point followed by one byte `48 + d` where `d ≤ 9` is the first
decimal digit of the fractional part, truncated (the last two conjuncts pin
`d` between `frac*10 - 1` and `frac*10`).  For negative `v` with a
fractional remainder the claim fails: `frac_digit` is negative and
`'0' + frac_digit % 10` is not a digit character (see the counterexample).
The model is exact arithmetic; IEEE-754 rounding of `frac_part * 10` is not
modelled and can further perturb the digit. -/
theorem c6_double_to_str (v : ℚ) (h : 0 ≤ v) :
    v4a.double_to_str v = v4a.int_to_str (v4a.cppTrunc v) ++
      (if v4a.eps < v4a.fracPart v then [46, 48 + v4a.firstFracDigit v] else []) ∧
    v4a.firstFracDigit v ≤ 9 ∧
    (v4a.firstFracDigit v : ℚ) ≤ v4a.fracPart v * 10 ∧
    v4a.fracPart v * 10 < (v4a.firstFracDigit v : ℚ) + 1 := by
  have hf0 : 0 ≤ v4a.fracPart v := v4a.fracPart_nonneg v h
  have hf1 : v4a.fracPart v < 1 := v4a.fracPart_lt_one v h
  have h10 : 0 ≤ v4a.fracPart v * 10 := by positivity
  have hdf : v4a.cppTrunc (v4a.fracPart v * 10) = ⌊v4a.fracPart v * 10⌋ :=
    v4a.cppTrunc_eq_floor _ h10
  have hd0 : 0 ≤ v4a.cppTrunc (v4a.fracPart v * 10) := by
    rw [hdf]; exact Int.floor_nonneg.2 h10
  have hd9 : v4a.cppTrunc (v4a.fracPart v * 10) ≤ 9 := by
    rw [hdf]
    have hlt : ⌊v4a.fracPart v * 10⌋ < 10 := Int.floor_lt.2 (by push_cast; linarith)
    omega
  have htn : (v4a.firstFracDigit v : Int) = v4a.cppTrunc (v4a.fracPart v * 10) := by
    rw [v4a.firstFracDigit, Int.toNat_of_nonneg hd0]
  refine ⟨?_, by omega, ?_, ?_⟩
  · show (if v4a.eps < v4a.fracPart v ∨ v4a.fracPart v < -v4a.eps then
        v4a.int_to_str (v4a.cppTrunc v) ++
          [46, (48 + Int.tmod (v4a.cppTrunc (v4a.fracPart v * 10)) 10).toNat]
      else v4a.int_to_str (v4a.cppTrunc v)) = _
    by_cases hc : v4a.eps < v4a.fracPart v
    · rw [if_pos (Or.inl hc), if_pos hc]
      have hmod : Int.tmod (v4a.cppTrunc (v4a.fracPart v * 10)) 10
          = v4a.cppTrunc (v4a.fracPart v * 10) := by
        rw [Int.tmod_eq_emod hd0 (by norm_num), Int.emod_eq_of_lt hd0 (by omega)]
      rw [hmod]
      have hbyte : (48 + v4a.cppTrunc (v4a.fracPart v * 10)).toNat
          = 48 + v4a.firstFracDigit v := by
        rw [v4a.firstFracDigit]; omega
      rw [hbyte]
    · have hnc : ¬ (v4a.eps < v4a.fracPart v ∨ v4a.fracPart v < -v4a.eps) := by
        push_neg
        have he := v4a.eps_pos
        exact ⟨le_of_not_lt hc, by linarith⟩
      rw [if_neg hnc, if_neg hc, List.append_nil]
  · have h1 := Int.floor_le (v4a.fracPart v * 10)
    rw [← hdf, ← htn] at h1
    exact_mod_cast h1
  · have h2 := Int.lt_floor_add_one (v4a.fracPart v * 10)
    rw [← hdf, ← htn] at h2
    exact_mod_cast h2

/-- Closed instance of `c6_double_to_str` at `v = 3.5`:
`double_to_str` yields `"3.5"`. -/
theorem c6_double_to_str_witness :
    (0 : ℚ) ≤ mkRat 7 2 ∧ v4a.double_to_str (mkRat 7 2) = [51, 46, 53] ∧
    (v4a.double_to_str (mkRat 7 2) = v4a.int_to_str (v4a.cppTrunc (mkRat 7 2)) ++
      (if v4a.eps < v4a.fracPart (mkRat 7 2)
        then [46, 48 + v4a.firstFracDigit (mkRat 7 2)] else []) ∧
     v4a.firstFracDigit (mkRat 7 2) ≤ 9 ∧
     (v4a.firstFracDigit (mkRat 7 2) : ℚ) ≤ v4a.fracPart (mkRat 7 2) * 10 ∧
     v4a.fracPart (mkRat 7 2) * 10 < (v4a.firstFracDigit (mkRat 7 2) : ℚ) + 1) :=
  ⟨by decide, by decide, c6_double_to_str (mkRat 7 2) (by decide)⟩

/-- C6 counterexample: at `v = -2.5` (all source-level double arithmetic is
exact there) the fractional remainder is `-0.5`, `frac_digit` is `-5`,
`-5 % 10 = -5` in C++, and the emitted byte is `'0' - 5 = 43`, the character
`+` — not the digit `5` (byte 53) the claim requires.  The output is
`"-2.+"`, not `"-2.5"`. -/
theorem c6_counterexample :
    v4a.double_to_str (mkRat (-5) 2) = [45, 50, 46, 43] ∧
    v4a.double_to_str (mkRat (-5) 2) ≠ [45, 50, 46, 53] := by
  decide

namespace v4a

/-- Field span: byte offset and placeholder width (src/v4.cpp `FieldOffset`). -/
structure FieldOffset where
  offset : Nat
  size : Nat
deriving DecidableEq

/-- The place-order template (src/v4.cpp lines 123–124). -/
def TEMPLATE : List Nat := bytes ("\x7b\"jsonrpc\":\"2.0\",\"method\":\"############\",\"id\":############,\"params\":\x7b\"access_token\":\"############\",\"instrument_name\":\"############\",\"amount\":############,\"label\":############,\"price\":############,\"post_only\":############,\"reject_post_only\":############,\"reduce_only\":############,\"time_in_force\":\"############\"\x7d\x7d")

/-- The cancel template (src/v4.cpp lines 128–129). -/
def CANCEL_TEMPLATE : List Nat := bytes ("\x7b\"jsonrpc\":\"2.0\",\"method\":\"############\",\"id\":############,\"params\":\x7b\"access_token\":\"############\",\"order_id\":\"############\"\x7d\x7d")

/-- The edit template (src/v4.cpp lines 133–134). -/
def EDIT_TEMPLATE : List Nat := bytes ("\x7b\"jsonrpc\":\"2.0\",\"method\":\"############\",\"id\":############,\"params\":\x7b\"access_token\":\"############\",\"order_id\":\"############\",\"amount\":############,\"price\":############,\"post_only\":############,\"reduce_only\":############\x7d\x7d")

/-- The hand-written offset constants (src/v4.cpp lines 139–155). -/
def METHOD_OFFSET : FieldOffset := ⟨27, 12⟩

def ID_OFFSET : FieldOffset := ⟨48, 10⟩

def ACCESS_TOKEN_OFFSET : FieldOffset := ⟨87, 12⟩

def INSTRUMENT_OFFSET : FieldOffset := ⟨122, 12⟩

def AMOUNT_OFFSET : FieldOffset := ⟨147, 12⟩

def LABEL_OFFSET : FieldOffset := ⟨169, 12⟩

def PRICE_OFFSET : FieldOffset := ⟨190, 12⟩

def POST_ONLY_OFFSET : FieldOffset := ⟨216, 12⟩

def REJECT_POST_ONLY_OFFSET : FieldOffset := ⟨249, 12⟩

def REDUCE_ONLY_OFFSET : FieldOffset := ⟨277, 12⟩

def TIME_IN_FORCE_OFFSET : FieldOffset := ⟨308, 12⟩

def CANCEL_ORDER_ID_OFFSET : FieldOffset := ⟨114, 12⟩

def EDIT_ORDER_ID_OFFSET : FieldOffset := ⟨114, 12⟩

def EDIT_AMOUNT_OFFSET : FieldOffset := ⟨139, 12⟩

def EDIT_PRICE_OFFSET : FieldOffset := ⟨160, 12⟩

def EDIT_POST_ONLY_OFFSET : FieldOffset := ⟨186, 12⟩

def EDIT_REDUCE_ONLY_OFFSET : FieldOffset := ⟨214, 12⟩

/-- Scanner state for `placeholderRuns`: byte list, current index, the run
in progress (start, length). -/
def runsAux : List Nat → Nat → Option (Nat × Nat) → List (Nat × Nat)
  | [], _, none => []
  | [], _, some r => [r]
  | c :: rest, i, none =>
    if c = 35 then runsAux rest (i + 1) (some (i, 1)) else runsAux rest (i + 1) none
  | c :: rest, i, some r =>
    if c = 35 then runsAux rest (i + 1) (some (r.1, r.2 + 1))
    else r :: runsAux rest (i + 1) none

/-- The maximal runs of `'#'` (byte 35) placeholder bytes of a template, as
(start offset, length) pairs in order. -/
def placeholderRuns (t : List Nat) : List (Nat × Nat) := runsAux t 0 none

end v4a

/-- C4 is violated: the `'#'` runs of the three templates are listed below,
and the hand-written constants do not coincide with them.  In the place
template only `METHOD_OFFSET` matches its run: `ID_OFFSET = {48,10}` sits
strictly inside the run at (46,12), leaving template bytes 46–47 as
permanent `'#'`; `ACCESS_TOKEN_OFFSET = {87,12}` runs past its run (85,12)
and covers byte 97, which in the template is the structural closing quote
(byte 34), so `set` on `access_token` overwrites skeleton structure.  The
cancel and edit `order_id`/`amount` constants likewise miss their runs. -/
theorem c4_offset_mismatch :
    v4a.placeholderRuns v4a.TEMPLATE =
      [(27, 12), (46, 12), (85, 12), (118, 12), (141, 12), (162, 12), (183, 12),
       (208, 12), (240, 12), (267, 12), (297, 12)] ∧
    v4a.ID_OFFSET = ⟨48, 10⟩ ∧
    ¬ (48, 10) ∈ v4a.placeholderRuns v4a.TEMPLATE ∧
    v4a.TEMPLATE[46]? = some 35 ∧ v4a.TEMPLATE[47]? = some 35 ∧
    v4a.ACCESS_TOKEN_OFFSET = ⟨87, 12⟩ ∧
    v4a.TEMPLATE[97]? = some 34 ∧
    v4a.ACCESS_TOKEN_OFFSET.offset ≤ 97 ∧
    97 < v4a.ACCESS_TOKEN_OFFSET.offset + v4a.ACCESS_TOKEN_OFFSET.size ∧
    v4a.placeholderRuns v4a.CANCEL_TEMPLATE =
      [(27, 12), (46, 12), (85, 12), (111, 12)] ∧
    ¬ (v4a.CANCEL_ORDER_ID_OFFSET.offset, v4a.CANCEL_ORDER_ID_OFFSET.size)
      ∈ v4a.placeholderRuns v4a.CANCEL_TEMPLATE ∧
    v4a.placeholderRuns v4a.EDIT_TEMPLATE =
      [(27, 12), (46, 12), (85, 12), (111, 12), (134, 12), (155, 12), (180, 12),
       (207, 12)] ∧
    ¬ (v4a.EDIT_AMOUNT_OFFSET.offset, v4a.EDIT_AMOUNT_OFFSET.size)
      ∈ v4a.placeholderRuns v4a.EDIT_TEMPLATE := by
  decide

namespace v4a

/-- In-place overwrite of `content` at byte `pos` of the buffer (the
`memcpy`/`memset` pair of `Writer::write_value` combined: the two writes are
adjacent and total `content.length` bytes). -/
def overwrite (buf : List Nat) (pos : Nat) (content : List Nat) : List Nat :=
  buf.take pos ++ content ++ buf.drop (pos + content.length)

/-- The `sz` bytes of the buffer starting at `pos`. -/
def extract (buf : List Nat) (pos sz : Nat) : List Nat := (buf.drop pos).take sz

/-- `Writer::write_value(offset, SV)` (src/v4.cpp lines 298–308), content
placed into the span: `copy_size = min(len, size)` bytes of the value, then
spaces for the remaining width. -/
def sv_content (sz : Nat) (v : List Nat) : List Nat :=
  v.take (min v.length sz) ++ List.replicate (sz - min v.length sz) 32

/-- The buffer after `write_value(offset, SV)`. -/
def write_value_sv (buf : List Nat) (off : FieldOffset) (v : List Nat) : List Nat :=
  overwrite buf off.offset (sv_content off.size v)

/-- `Writer::write_value` for `int`/`uint64_t`/`double` (src/v4.cpp lines
314–353), content placed into the span: the formatted bytes right-aligned
with left space padding when they fit, otherwise the first `size` bytes. -/
def num_content (sz : Nat) (formatted : List Nat) : List Nat :=
  if formatted.length ≤ sz then List.replicate (sz - formatted.length) 32 ++ formatted
  else formatted.take (min formatted.length sz)

/-- The buffer after `write_value(offset, int)` (via `int_to_str`). -/
def write_value_int (buf : List Nat) (off : FieldOffset) (value : Int) : List Nat :=
  overwrite buf off.offset (num_content off.size (int_to_str value))

/-- The buffer after `write_value(offset, double)` (via `double_to_str`). -/
def write_value_double (buf : List Nat) (off : FieldOffset) (value : ℚ) : List Nat :=
  overwrite buf off.offset (num_content off.size (double_to_str value))

theorem sv_content_length (sz : Nat) (v : List Nat) :
    (sv_content sz v).length = sz := by
  simp [sv_content]

theorem extract_overwrite (buf : List Nat) (pos : Nat) (content : List Nat)
    (h : pos ≤ buf.length) :
    extract (overwrite buf pos content) pos content.length = content := by
  have hl : (buf.take pos).length = pos := by
    rw [List.length_take]; omega
  rw [overwrite, extract, List.append_assoc, List.drop_left' hl, List.take_left' rfl]

theorem sv_content_general (sz : Nat) (v : List Nat) :
    sv_content sz v = v.take sz ++ List.replicate (sz - v.length) 32 := by
  by_cases h : v.length ≤ sz
  · rw [sv_content, min_eq_left h, List.take_length, List.take_of_length_le h]
  · rw [sv_content, min_eq_right (by omega)]
    have h0 : sz - v.length = 0 := by omega
    rw [h0]
    simp

end v4a

/-- C7: width-boundary behaviour of the template-overwrite writer.  The
value span written by `write_value` is exactly the content functions below;
a text value of length `W` is copied with zero padding, length `W+1` is
truncated by exactly the trailing byte, length `W-1` leaves exactly one
padding space (trailing for text, leading for numerics); in general text is
left-aligned and right-padded with spaces, numeric values are right-aligned
and left-padded, and anything longer than the span is cut to `W` bytes. -/
theorem c7_width_boundary (buf : List Nat) (off : v4a.FieldOffset)
    (v temp : List Nat) (hin : off.offset ≤ buf.length) :
    v4a.extract (v4a.write_value_sv buf off v) off.offset off.size
      = v4a.sv_content off.size v ∧
    (v.length = off.size →
      v4a.sv_content off.size v = v ∧ v4a.num_content off.size v = v) ∧
    (v.length = off.size + 1 →
      v4a.sv_content off.size v = v.dropLast ∧
      v4a.num_content off.size v = v.dropLast) ∧
    (v.length + 1 = off.size →
      v4a.sv_content off.size v = v ++ [32] ∧
      v4a.num_content off.size v = 32 :: v) ∧
    v4a.sv_content off.size v
      = v.take off.size ++ List.replicate (off.size - v.length) 32 ∧
    (temp.length ≤ off.size → v4a.num_content off.size temp
      = List.replicate (off.size - temp.length) 32 ++ temp) ∧
    (off.size < temp.length →
      v4a.num_content off.size temp = temp.take off.size) := by
  refine ⟨?_, ?_, ?_, ?_, v4a.sv_content_general off.size v, ?_, ?_⟩
  · simpa [v4a.sv_content_length] using
      v4a.extract_overwrite buf off.offset (v4a.sv_content off.size v) hin
  · intro h
    constructor
    · rw [v4a.sv_content_general, h, List.take_of_length_le (le_of_eq h)]
      simp
    · rw [v4a.num_content, if_pos (le_of_eq h), h]
      simp
  · intro h
    have hsz : off.size = v.length - 1 := by omega
    constructor
    · rw [v4a.sv_content_general, List.dropLast_eq_take, ← hsz]
      have h0 : off.size - v.length = 0 := by omega
      rw [h0]
      simp
    · rw [v4a.num_content, if_neg (by omega), min_eq_right (by omega),
        List.dropLast_eq_take, ← hsz]
  · intro h
    constructor
    · rw [v4a.sv_content_general, List.take_of_length_le (by omega)]
      have h1 : off.size - v.length = 1 := by omega
      rw [h1]
      rfl
    · rw [v4a.num_content, if_pos (by omega)]
      have h1 : off.size - v.length = 1 := by omega
      rw [h1]
      rfl
  · intro h
    rw [v4a.num_content, if_pos h]
  · intro h
    rw [v4a.num_content, if_neg (by omega), min_eq_right (by omega)]

/-- Closed instance of `c7_width_boundary` on a span of width 4 inside a
12-byte buffer, together with evaluated boundary cases: `"abcd"` (exact
width), `"abcde"` (one longer, trailing byte cut), `"abc"` (one shorter,
one space), and the numeric value 23 right-aligned as `"  23"`. -/
theorem c7_width_boundary_witness :
    (2 : Nat) ≤ (List.replicate 12 35).length ∧
    v4a.sv_content 4 (bytes ("abcd")) = bytes ("abcd") ∧
    v4a.sv_content 4 (bytes ("abcde")) = bytes ("abcd") ∧
    v4a.sv_content 4 (bytes ("abc")) = bytes ("abc ") ∧
    v4a.num_content 4 (v4a.int_to_str 23) = bytes ("  23") ∧
    (v4a.extract (v4a.write_value_sv (List.replicate 12 35) ⟨2, 4⟩ (bytes ("abc")))
      2 4 = v4a.sv_content 4 (bytes ("abc"))) :=
  ⟨by decide, by decide, by decide, by decide, by decide,
   (c7_width_boundary (List.replicate 12 35) ⟨2, 4⟩ (bytes ("abc")) []
     (by decide)).1⟩

namespace v4a

/-- `StaticBuffer<Capacity>` (src/v4.cpp lines 13–36): the compile-time
capacity and the current `size_`.  The `char data_[Capacity]` storage is
uninitialized memory that `clear`/`set_size` never touch, so it is not part
of the state; `view()` denotes the first `size` bytes of that storage. -/
structure StaticBuffer where
  cap : Nat
  size : Nat
deriving DecidableEq

/-- A fresh `StaticBuffer` of the given capacity: `size_(0)`. -/
def sb_mk (capacity : Nat) : StaticBuffer := ⟨capacity, 0⟩

/-- `StaticBuffer::clear()`. -/
def sb_clear (b : StaticBuffer) : StaticBuffer := ⟨b.cap, 0⟩

/-- `StaticBuffer::set_size(new_size)`: stores the new size only when it
does not exceed the capacity, otherwise leaves the buffer unchanged with no
error report. -/
def set_size (b : StaticBuffer) (new_size : Nat) : StaticBuffer :=
  if new_size ≤ b.cap then ⟨b.cap, new_size⟩ else b

/-- The mutating operations of `StaticBuffer`. -/
inductive SbOp where
  | clear : SbOp
  | set_size : Nat → SbOp
deriving DecidableEq

/-- A sequence of `clear`/`set_size` calls. -/
def sb_run (b : StaticBuffer) : List SbOp → StaticBuffer
  | [] => b
  | .clear :: rest => sb_run (sb_clear b) rest
  | .set_size n :: rest => sb_run (set_size b n) rest

theorem sb_run_invariant (ops : List SbOp) (b : StaticBuffer)
    (h : b.size ≤ b.cap) :
    (sb_run b ops).size ≤ (sb_run b ops).cap ∧ (sb_run b ops).cap = b.cap := by
  induction ops generalizing b with
  | nil => exact ⟨h, rfl⟩
  | cons op rest ih =>
    cases op with
    | clear => exact ih (sb_clear b) (by simp [sb_clear])
    | set_size n =>
      by_cases hn : n ≤ b.cap
      · have := ih ⟨b.cap, n⟩ hn
        simpa [sb_run, set_size, hn] using this
      · have := ih b h
        simpa [sb_run, set_size, hn] using this

end v4a

/-- C9: the `StaticBuffer` size never exceeds the compile-time capacity
under any sequence of operations — `clear` zeroes the size, and a
`set_size` beyond the capacity is silently ignored, leaving the buffer
unchanged — so `view()` always denotes at most `Capacity` bytes. -/
theorem c9_static_buffer_invariant (capacity n : Nat) (ops : List v4a.SbOp)
    (b : v4a.StaticBuffer) (h : b.cap < n) :
    (v4a.sb_run (v4a.sb_mk capacity) ops).size ≤ capacity ∧
    v4a.set_size b n = b ∧
    (v4a.sb_clear b).size = 0 := by
  refine ⟨?_, by rw [v4a.set_size, if_neg (by omega)], rfl⟩
  have hrun := v4a.sb_run_invariant ops (v4a.sb_mk capacity) (by simp [v4a.sb_mk])
  have hcap : (v4a.sb_run (v4a.sb_mk capacity) ops).cap = capacity := hrun.2
  omega

/-- Closed instance of `c9_static_buffer_invariant`: capacity 4096, an
over-large `set_size(5000)` followed by `set_size(10)`, and a buffer of
capacity 3 whose `set_size(5)` is ignored. -/
theorem c9_static_buffer_invariant_witness :
    (v4a.sb_run (v4a.sb_mk 4096)
      [.set_size 5000, .clear, .set_size 10]).size ≤ 4096 ∧
    v4a.set_size ⟨3, 2⟩ 5 = ⟨3, 2⟩ ∧
    (v4a.sb_clear ⟨3, 2⟩).size = 0 :=
  c9_static_buffer_invariant 4096 5 [.set_size 5000, .clear, .set_size 10]
    ⟨3, 2⟩ (by decide)

namespace v4b

/-- Writer state of the second translation unit's incremental `Writer`
(src/v4.cpp lines 1337–1466): the buffer bytes written so far and the
bookkeeping flags.  `first_param_` is uninitialized in the C++ constructor
but is always assigned before its first read; the model starts it at
`false`. -/
structure WState where
  buf : List Nat
  wrote_jsonrpc : Bool
  wrote_method : Bool
  wrote_id : Bool
  started_params : Bool
  finished_params : Bool
  first_param : Bool
deriving DecidableEq

/-- The state after `Writer(buffer.data(), size)` on a cleared buffer. -/
def winit : WState := ⟨[], false, false, false, false, false, false⟩

/-- `write_value(const sv&)`: quote, the raw bytes (no escaping), quote. -/
def wv_sv (v : List Nat) : List Nat := 34 :: v ++ [34]

/-- `write_value(uint64_t)` / `write_value(int)` via `int_to_str` (the
second translation unit's copy is identical to `v4a.int_to_str`). -/
def wv_int (n : Int) : List Nat := v4a.int_to_str n

/-- `write_value(double)` via `double_to_str` (identical to
`v4a.double_to_str`). -/
def wv_double (v : ℚ) : List Nat := v4a.double_to_str v

/-- `write_value(bool)`. -/
def wv_bool (b : Bool) : List Nat :=
  if b then bytes ("true") else bytes ("false")

/-- `Writer::write_field(name, value, first)` (src/v4.cpp lines 1379–1391):
an opening brace when the buffer is empty, a comma unless first, then a
quote and a colon, then the value.  The `name` parameter is received but
never copied into the buffer — the source writes `"` and `:` with nothing
in between. -/
def write_field (buf : List Nat) ( name : List Nat) (value : List Nat)
    (first : Bool) : List Nat :=
  let b1 := if buf.length = 0 then buf ++ [123] else buf
  let b2 := if first then b1 else b1 ++ [44]
  b2 ++ [34, 58] ++ value

/-- `Writer::add_field_start(name, first)` (src/v4.cpp lines 1393–1408):
like `write_field` but this one does copy the name, then opens an object. -/
def add_field_start (buf : List Nat) ( name : List Nat) (first : Bool) : List Nat :=
  let b1 := if buf.length = 0 then buf ++ [123] else buf
  let b2 := if first then b1 else b1 ++ [44]
  b2 ++ [34] ++ name ++ [34, 58, 123]

/-- `set<method_t>(value)`. -/
def set_method (st : WState) (v : List Nat) : WState :=
  { st with
    wrote_method := true
    buf := write_field st.buf (bytes ("method")) (wv_sv v) (!st.wrote_jsonrpc) }

/-- `set<request_id_t>(value)`. -/
def set_id (st : WState) (v : Int) : WState :=
  { st with
    wrote_id := true
    buf := write_field st.buf (bytes ("id")) (wv_int v)
        (!st.wrote_jsonrpc && !st.wrote_method) }

/-- `set<params_t, ChildTag>(value)` (src/v4.cpp lines 1356–1367): opens the
`params` object on first use, then writes the child field. -/
def set_param (st : WState) (childName : List Nat) (value : List Nat) : WState :=
  if st.started_params then
    { st with
      buf := write_field st.buf childName value st.first_param
      first_param := false }
  else
    { st with
      buf := write_field
          (add_field_start st.buf (bytes ("params"))
            (!st.wrote_jsonrpc && !st.wrote_method && !st.wrote_id))
          childName value true
      started_params := true
      first_param := false }

/-- `Writer::finalize()`: close `params` if it was opened and not yet
closed, then close the envelope. -/
def finalize (st : WState) : List Nat :=
  (if st.started_params && !st.finished_params then st.buf ++ [125] else st.buf)
    ++ [125]

/-- `Serializer::write<place_schema>` with the callback of
`verify_json_serialization` (src/v4.cpp lines 1514–1539): clear, the eleven
`set` calls, `finalize`, `set_size` into the `StaticBuffer<4096>` (sizes
beyond 4096 would be ignored, leaving the cleared size 0). -/
def write_place (method access_token instrument tif : List Nat) (id label : Int)
    (amount price : ℚ) (post reject reduce : Bool) : List Nat :=
  let st1 := set_method winit method
  let st2 := set_id st1 id
  let st3 := set_param st2 (bytes ("access_token")) (wv_sv access_token)
  let st4 := set_param st3 (bytes ("instrument_name")) (wv_sv instrument)
  let st5 := set_param st4 (bytes ("amount")) (wv_double amount)
  let st6 := set_param st5 (bytes ("label")) (wv_int label)
  let st7 := set_param st6 (bytes ("price")) (wv_double price)
  let st8 := set_param st7 (bytes ("post_only")) (wv_bool post)
  let st9 := set_param st8 (bytes ("reject_post_only")) (wv_bool reject)
  let st10 := set_param st9 (bytes ("reduce_only")) (wv_bool reduce)
  let st11 := set_param st10 (bytes ("time_in_force")) (wv_sv tif)
  let out := finalize st11
  if out.length ≤ 4096 then out else []

end v4b

/-- C3 fails on the code: at the claim's exact inputs the incremental
`Writer` of v4 produces a byte string in which every key name inside
`write_field` is missing (the source never copies its `name` argument, so
each field renders as `":value`) and the `jsonrpc` field is absent entirely
(the callback never sets it).  The first conjunct evaluates the code's
actual output; the second states it differs from the claimed bytes.  The
whole-number doubles do render without trailing zeros (`100`, `99993`), but
inside a malformed envelope. -/
theorem c3_place_order_output :
    v4b.write_place (bytes ("private/buy")) (bytes ("tok"))
      (bytes ("BTC-PERPETUAL")) (bytes ("immediate_or_cancel")) 17 23
      (100 : ℚ) (99993 : ℚ) true false false
    = bytes ("\x7b\":\"private/buy\",\":17,\"params\":\x7b\":\"tok\",\":\"BTC-PERPETUAL\",\":100,\":23,\":99993,\":true,\":false,\":false,\":\"immediate_or_cancel\"\x7d\x7d") ∧
    v4b.write_place (bytes ("private/buy")) (bytes ("tok"))
      (bytes ("BTC-PERPETUAL")) (bytes ("immediate_or_cancel")) 17 23
      (100 : ℚ) (99993 : ℚ) true false false
    ≠ bytes ("\x7b\"jsonrpc\":\"2.0\",\"method\":\"private/buy\",\"id\":17,\"params\":\x7b\"access_token\":\"tok\",\"instrument_name\":\"BTC-PERPETUAL\",\"amount\":100,\"label\":23,\"price\":99993,\"post_only\":true,\"reject_post_only\":false,\"reduce_only\":false,\"time_in_force\":\"immediate_or_cancel\"\x7d\x7d") := by
  constructor
  · decide
  · decide

namespace p4

/-- The bounds-checked `Buffer` of src/unnamed/part_004 (lines 13–49):
fixed capacity, no reallocation; `data` is the bytes written so far. -/
structure Buffer where
  cap : Nat
  data : List Nat
deriving DecidableEq

/-- `Buffer(capacity)`. -/
def mkBuffer (capacity : Nat) : Buffer := ⟨capacity, []⟩

/-- `Buffer::append(const char*, size_t)` (lines 21–26): copies only when
`size_ + len <= capacity_`; otherwise the call does nothing at all. -/
def append_str (b : Buffer) (s : List Nat) : Buffer :=
  if b.data.length + s.length ≤ b.cap then ⟨b.cap, b.data ++ s⟩ else b

/-- `Buffer::append(char)` (lines 28–32): writes only when
`size_ < capacity_`. -/
def append_chr (b : Buffer) (c : Nat) : Buffer :=
  if b.data.length < b.cap then ⟨b.cap, b.data ++ [c]⟩ else b

/-- One append call. -/
inductive P4Op where
  | str : List Nat → P4Op
  | chr : Nat → P4Op
deriving DecidableEq

/-- A sequence of append calls. -/
def run_ops (b : Buffer) : List P4Op → Buffer
  | [] => b
  | .str s :: rest => run_ops (append_str b s) rest
  | .chr c :: rest => run_ops (append_chr b c) rest

theorem run_ops_invariant (ops : List P4Op) (b : Buffer)
    (h : b.data.length ≤ b.cap) :
    (run_ops b ops).data.length ≤ (run_ops b ops).cap ∧
    (run_ops b ops).cap = b.cap := by
  induction ops generalizing b with
  | nil => exact ⟨h, rfl⟩
  | cons op rest ih =>
    cases op with
    | str s =>
      by_cases hs : b.data.length + s.length ≤ b.cap
      · have := ih ⟨b.cap, b.data ++ s⟩ (by simp only [List.length_append]; omega)
        simpa [run_ops, append_str, hs] using this
      · have := ih b h
        simpa [run_ops, append_str, hs] using this
    | chr c =>
      by_cases hc : b.data.length < b.cap
      · have := ih ⟨b.cap, b.data ++ [c]⟩
          (by simp only [List.length_append, List.length_cons, List.length_nil]; omega)
        simpa [run_ops, append_chr, hc] using this
      · have := ih b h
        simpa [run_ops, append_chr, hc] using this

end p4

/-- C10: in the bounds-checked buffer an append whose length would exceed
the remaining capacity is skipped as a whole — contents, size and capacity
are left exactly unchanged, with no partial copy, reallocation or error
report — and consequently size never exceeds capacity after any sequence of
appends from a fresh buffer. -/
theorem c10_append_all_or_nothing (b : p4.Buffer) (s : List Nat)
    (capacity : Nat) (ops : List p4.P4Op)
    (h : b.cap < b.data.length + s.length) :
    p4.append_str b s = b ∧
    (p4.run_ops (p4.mkBuffer capacity) ops).data.length ≤ capacity := by
  constructor
  · rw [p4.append_str, if_neg (by omega)]
  · have hrun := p4.run_ops_invariant ops (p4.mkBuffer capacity)
      (by simp [p4.mkBuffer])
    have hcap : (p4.run_ops (p4.mkBuffer capacity) ops).cap = capacity := hrun.2
    omega

/-- Closed instance of `c10_append_all_or_nothing`: a capacity-4 buffer
holding 3 bytes rejects a 2-byte append unchanged, and a fresh capacity-4
buffer never exceeds size 4 over a mixed append sequence. -/
theorem c10_append_all_or_nothing_witness :
    p4.append_str ⟨4, [120, 121, 122]⟩ [1, 2] = ⟨4, [120, 121, 122]⟩ ∧
    (p4.run_ops (p4.mkBuffer 4)
      [.str [1, 2, 3], .str [4, 5], .chr 6, .chr 7]).data.length ≤ 4 :=
  c10_append_all_or_nothing ⟨4, [120, 121, 122]⟩ [1, 2] 4
    [.str [1, 2, 3], .str [4, 5], .chr 6, .chr 7] (by decide)
